import Mathlib

/-!
Verification of the FlightDynamicPricing repository.

The development shallowly embeds the two orchestration engines of the
repository:

* `server/storage.ts` — the inventory ledger (`Bucket`, session state),
  the booking operation `bookTicket`, the feature-multiplier pricing step
  of `runOrchestration` (validation of the multipliers returned by the
  pricing agent, clamping, class-based scaling, price write-back), and
  the seeding of the initial bucket set in `createSession`.

* `server/logger.ts` — the `OrchestratorAgent` class: `generatePlan` /
  `getDefaultPlan`, the priority-sorted dependency-checked task loop of
  `orchestrate`, and the per-task fallback results produced by the
  `run*Agent` catch branches when the reasoning provider throws.

Finite JavaScript numbers are modelled as rationals (`ℚ`); a JSON value
that is absent, non-numeric or NaN is modelled by the non-numeric
constructors of `RawMult`.  `Math.round` on finite inputs is
`jsRound x = ⌊x + 1/2⌋`.
-/

namespace FDP

/-! ### Pricing-step embedding (`server/storage.ts`, `runOrchestration`) -/

/-- One raw feature multiplier as found in the JSON returned by the
pricing agent: the feature object can be missing (falsy), its `value`
field can fail the `typeof val.value !== 'number' || isNaN(val.value)`
check, or it can be a finite number. -/
inductive RawMult where
  | missing : RawMult
  | invalid : RawMult
  | num : ℚ → RawMult
deriving DecidableEq

/-- The five feature multipliers of the pricing agent response. -/
structure RawMultipliers where
  demand : RawMult
  urgency : RawMult
  competition : RawMult
  fuel : RawMult
  seasonality : RawMult
deriving DecidableEq

/-- Embeds `defaultMultiplier = 1.0`: the value used for a missing feature
object (`result.multipliers?.x || defaultMultiplier`) and substituted by
the validation loop when `value` is not a finite number. -/
def RawMult.validated : RawMult → ℚ
  | .missing => 1
  | .invalid => 1
  | .num q => q

/-- Product of the five validated feature multipliers
(`combinedMultiplier` in `runOrchestration`). -/
def combinedMultiplier (m : RawMultipliers) : ℚ :=
  m.demand.validated * m.urgency.validated * m.competition.validated *
    m.fuel.validated * m.seasonality.validated

/-- Embeds `Math.max(0.80, Math.min(1.20, combinedMultiplier))`. -/
def clampedMultiplier (m : RawMultipliers) : ℚ :=
  max 0.80 (min 1.20 (combinedMultiplier m))

/-- Class-based scaling applied per bucket: BUSINESS buckets get
`Math.min(1.25, clampedMultiplier * 1.05)`, every other class keeps the
clamped multiplier.  The `class` column is a string, so the embedding
keeps it as `String`. -/
def bucketMultiplier (cls : String) (clamped : ℚ) : ℚ :=
  if cls = "BUSINESS" then min 1.25 (clamped * 1.05) else clamped

/-- JavaScript `Math.round` on finite numbers. -/
def jsRound (x : ℚ) : ℤ := ⌊x + 1/2⌋

/-- A seat bucket row (`buckets` table): `sold` is nullable, read back
through `(bucket.sold || 0)`; `cls` embeds the `class` column. -/
structure Bucket where
  id : ℕ
  code : String
  cls : String
  allocated : ℚ
  sold : Option ℚ
  price : ℚ
  basePrice : ℚ
deriving DecidableEq

/-- Embeds `(bucket.sold || 0)`. -/
def soldD (b : Bucket) : ℚ := b.sold.getD 0

/-- The mutable per-session ledger: the bucket rows of the session plus
the session's `totalRevenue` aggregate. -/
structure SessState where
  buckets : List Bucket
  totalRevenue : ℚ
deriving DecidableEq

/-- Embeds `newPrice = Math.round(bucket.basePrice * bucketMultiplier)` for one
bucket, as a rational. -/
def newPriceQ (b : Bucket) (m : RawMultipliers) : ℚ :=
  (jsRound (b.basePrice * bucketMultiplier b.cls (clampedMultiplier m)) : ℤ)

/-- The price write-back loop of `runOrchestration`: every bucket's
`price` is set to `Math.round(basePrice * bucketMultiplier)`; no other
bucket field and no session field is written. -/
def applyPricingRound (st : SessState) (m : RawMultipliers) : SessState :=
  { st with buckets := st.buckets.map (fun b => { b with price := newPriceQ b m }) }

/-- Outcome of the pricing agent's provider call in `runOrchestration`:
either the `try` block completes with a parsed multiplier object, or it
throws (provider error, no JSON, unparsable JSON). -/
inductive PricingAgentOutcome where
  | err : PricingAgentOutcome
  | ok : RawMultipliers → PricingAgentOutcome

/-- The pricing step of `runOrchestration` including its `catch`: on any
thrown error the ledger is left untouched. -/
def runPricingStep (st : SessState) : PricingAgentOutcome → SessState
  | .err => st
  | .ok m => applyPricingRound st m

/-- The hard-coded initial bucket rows of `createSession`
(`initialBuckets` in `server/storage.ts`). -/
structure InitBucketDef where
  code : String
  cls : String
  allocated : ℚ
  price : ℚ
  basePrice : ℚ
deriving DecidableEq

def initialBuckets : List InitBucketDef :=
  [ ⟨"ECO_1", "ECONOMY", 42, 12000, 12000⟩,
    ⟨"ECO_2", "ECONOMY", 42, 14000, 14000⟩,
    ⟨"ECO_3", "ECONOMY", 42, 16000, 16000⟩,
    ⟨"ECO_4", "ECONOMY", 42, 18000, 18000⟩,
    ⟨"BUS_1", "BUSINESS", 12, 28000, 28000⟩,
    ⟨"BUS_2", "BUSINESS", 12, 32000, 32000⟩ ]

/-! ### Booking and session seeding (`server/storage.ts`) -/

/-- The bucket row selected by `bookTicket`'s
`WHERE sessionId = ? AND code = ?` query (first matching row). -/
def findBucket (st : SessState) (code : String) : Option Bucket :=
  st.buckets.find? (fun b => b.code = code)

/-- Embeds `bookTicket(sessionId, bucketCode, quantity)`: fails when no bucket
matches the code or when `(sold || 0) + quantity > allocated`; otherwise
sets the target row's `sold` and adds `price * quantity` to the
session's `totalRevenue`.  The row update is keyed by the bucket `id`,
exactly as in the source. -/
def bookTicket (st : SessState) (code : String) (quantity : ℚ) : Bool × SessState :=
  match findBucket st code with
  | none => (false, st)
  | some target =>
    if soldD target + quantity > target.allocated then (false, st)
    else
      (true,
        { buckets := st.buckets.map (fun b =>
            if b.id = target.id then { b with sold := some (soldD target + quantity) } else b),
          totalRevenue := st.totalRevenue + target.price * quantity })

/-- The `bucketSales` capacity table used by `createSession` to
distribute the pre-sold seats (cheaper buckets sell first). -/
def bucketSales : List (String × ℕ) :=
  [("ECO_1", 42), ("ECO_2", 42), ("ECO_3", 42), ("ECO_4", 42), ("BUS_1", 12), ("BUS_2", 12)]

/-- The seat-distribution loop of `createSession`: each bucket receives
`min(remainingToSell, maxSold)`; once nothing remains, later buckets
receive 0 (in the source the loop breaks and the missing map entries
read back as `|| 0`). -/
def distributeSeats : ℕ → List (String × ℕ) → List (String × ℕ)
  | _, [] => []
  | n, (code, cap) :: rest => (code, min n cap) :: distributeSeats (n - min n cap) rest

/-- Embeds `soldPerBucket[b.code] || 0`. -/
def soldFor (assigns : List (String × ℕ)) (code : String) : ℕ :=
  ((assigns.find? (fun p => p.1 = code)).map Prod.snd).getD 0

def mkInitBucket (i : ℕ) (d : InitBucketDef) (s : ℕ) : Bucket :=
  ⟨i, d.code, d.cls, d.allocated, some (s : ℚ), d.price, d.basePrice⟩

/-- The ledger created by `createSession` after inserting the six
initial buckets with `seatsSold` pre-sold seats distributed over them;
the session revenue is seeded as the sum of `sold * price` over the
initial buckets. -/
def initialState (seatsSold : ℕ) : SessState :=
  { buckets := initialBuckets.enum.map
      (fun p => mkInitBucket p.1 p.2 (soldFor (distributeSeats seatsSold bucketSales) p.2.code)),
    totalRevenue := (initialBuckets.map
      (fun d => ((soldFor (distributeSeats seatsSold bucketSales) d.code : ℕ) : ℚ) * d.price)).sum }

/-- The capacity invariant claimed for every bucket:
`0 ≤ sold ≤ allocated`. -/
def capacityInv (st : SessState) : Prop :=
  ∀ b ∈ st.buckets, 0 ≤ soldD b ∧ soldD b ≤ b.allocated

/-- Session revenue as the specification defines it:
`Σ price_i × sold_i` over the complete bucket set.  This definition
follows the spec's words and is compared against the embedded code. -/
def specSessionRevenue (bs : List Bucket) : ℚ :=
  (bs.map (fun b => b.price * soldD b)).sum

/-- The booking route's input constraint `quantity: z.number().min(1)`
(`shared/routes.ts`): the only place a lower bound on the booking
quantity is enforced. -/
def bookQuantityValid (q : ℚ) : Bool := 1 ≤ q

/-- A concrete ECONOMY bucket and a raw pricing response whose
multipliers are wildly out of range (5.0), invalid, and missing. -/
def cexEcoBucket : Bucket := ⟨0, "ECO_1", "ECONOMY", 42, some 10, 12000, 12000⟩

def wildMultipliers : RawMultipliers :=
  ⟨.num 5, .invalid, .missing, .num 0.1, .num 1⟩

/-- A one-bucket ledger that is aggregate-consistent before repricing:
one seat sold at the base price 12000, revenue 12000. -/
def consistentLedger : SessState :=
  ⟨[⟨0, "ECO_1", "ECONOMY", 42, some 1, 12000, 12000⟩], 12000⟩

/-- A pricing response whose combined multiplier is exactly 1.2. -/
def upliftMultipliers : RawMultipliers :=
  ⟨.num 1.2, .num 1, .num 1, .num 1, .num 1⟩

/-- A nearly full bucket (41 of 42 sold) used to exercise the
overbooking rejection path. -/
def nearlyFullBucket : Bucket := ⟨0, "ECO_1", "ECONOMY", 42, some 41, 12000, 12000⟩

def nearlyFullLedger : SessState := ⟨[nearlyFullBucket], 492000⟩

/-- A ledger used to exercise the missing lower bound of `bookTicket`:
5 seats sold at a dynamic price of 14400. -/
def midSoldBucket : Bucket := ⟨0, "ECO_1", "ECONOMY", 42, some 5, 14400, 12000⟩

def midSoldLedger : SessState := ⟨[midSoldBucket], 100000⟩

/-! ### Orchestrator embedding (`server/logger.ts`, `OrchestratorAgent`) -/

/-- One task of an orchestration plan (`AgentTask` in `shared/schema.ts`).
`agentType` is kept as a string because `generatePlan` casts the parsed
value to `SubAgentType` without validating it. -/
structure AgentTask where
  agentType : String
  priority : ℤ
  reason : String
  dependsOn : List String
  inputContext : List String
deriving DecidableEq

/-- An orchestration plan.  The random `planId` (timestamp plus random
suffix, purely an identifier) is not modelled. -/
structure OrchestratorPlan where
  objective : String
  strategy : String
  reasoning : String
  estimatedImpact : String
  tasks : List AgentTask
deriving DecidableEq

/-- A task object as parsed from the provider's JSON: every field may be
absent. -/
structure ParsedTask where
  agentType : String
  priority : Option ℤ
  reason : Option String
  dependsOn : Option (List String)
  inputContext : Option (List String)

/-- A plan object as parsed from the provider's JSON. -/
structure ParsedPlan where
  objective : Option String
  strategy : Option String
  reasoning : Option String
  estimatedImpact : Option String
  tasks : Option (List ParsedTask)

/-- JavaScript `x || d` for a string field: the empty string is falsy. -/
def jsOrStr (v : Option String) (d : String) : String :=
  match v with
  | some s => if s = "" then d else s
  | none => d

/-- JavaScript `x || d` for an integer field: 0 is falsy. -/
def jsOrInt (v : Option ℤ) (d : ℤ) : ℤ :=
  match v with
  | some p => if p = 0 then d else p
  | none => d

/-- The task mapping of `generatePlan`'s success branch:
`priority: t.priority || 1`, `reason: t.reason || ""`,
`dependsOn: t.dependsOn || []`, `inputContext: t.inputContext || []`
(an array is always truthy, so only `undefined` falls back). -/
def mapParsedTask (t : ParsedTask) : AgentTask :=
  ⟨t.agentType, jsOrInt t.priority 1, jsOrStr t.reason "",
    t.dependsOn.getD [], t.inputContext.getD []⟩

/-- The hard-coded fallback plan (`getDefaultPlan`). -/
def getDefaultPlan : OrchestratorPlan :=
  { objective := "Standard pricing optimization",
    strategy := "BALANCED",
    reasoning := "Fallback plan due to planning error - executing all agents in standard order",
    estimatedImpact := "Standard pricing adjustments",
    tasks :=
      [ ⟨"objective", 1, "Set pricing strategy", [], ["environment"]⟩,
        ⟨"forecast", 2, "Analyze demand", ["objective"], ["environment", "objective"]⟩,
        ⟨"competitor", 2, "Check competition", [], ["environment"]⟩,
        ⟨"pricing", 3, "Calculate prices", ["objective", "forecast"], ["objective", "forecast"]⟩,
        ⟨"seat_allocation", 4, "Adjust allocation", ["pricing"], ["pricing", "buckets"]⟩ ] }

/-- Outcome of the provider call plus `JSON.parse` inside
`generatePlan`'s `try` block. -/
inductive PlanOutcome where
  | err : PlanOutcome
  | ok : ParsedPlan → PlanOutcome

/-- Embeds `generatePlan`: on a thrown error the fixed default plan; on a
parsed response, field-by-field `||`-defaults and a blind map over
`parsed.tasks || []` (no emptiness check). -/
def generatePlan : PlanOutcome → OrchestratorPlan
  | .err => getDefaultPlan
  | .ok p =>
    { objective := jsOrStr p.objective "Optimize pricing",
      strategy := jsOrStr p.strategy "BALANCED",
      reasoning := jsOrStr p.reasoning "Default balanced approach",
      estimatedImpact := jsOrStr p.estimatedImpact "Standard optimization",
      tasks := (p.tasks.getD []).map mapParsedTask }

/-- A parsed plan with every field missing (e.g. the provider returned
the parseable JSON object with no recognised fields). -/
def emptyParsedPlan : ParsedPlan := ⟨none, none, none, none, none⟩

/-- A task that depends on a type absent from its plan. -/
def orphanTask : AgentTask := ⟨"pricing", 2, "needs forecast", ["forecast"], []⟩

/-- A plan whose task list contains `orphanTask` but no forecast task. -/
def orphanPlan : OrchestratorPlan :=
  ⟨"Optimize pricing", "BALANCED", "test plan", "standard",
    [⟨"objective", 1, "first", [], []⟩, orphanTask]⟩

/-- The structured `output` payload of a sub-agent result, restricted to
the fields the claims mention. -/
inductive AgentOutput where
  | objectiveOut (objective confidence urgency : String)
  | forecastOut (demandScore : ℚ) (bookingVelocity : String) (peakProbability : ℚ)
  | pricingOut (multiplier : ℚ) (adjustmentType : String)
  | seatOut (action confidence : String)
  | competitorOut (threatLevel marketPosition recommendedResponse : String)
  | emptyOut
deriving DecidableEq

/-- Embeds `SubAgentResult` (`shared/schema.ts`), without the unused
`a2aMessages` list. -/
structure SubAgentResult where
  agentType : String
  success : Bool
  decision : String
  reasoning : String
  output : AgentOutput
deriving DecidableEq

/-- Reads `output.adjustmentType` as `computeFinalOutcome`: absent for
non-pricing outputs. -/
def adjustmentTypeOf : AgentOutput → Option String
  | .pricingOut _ a => some a
  | _ => none

/-- Embeds `executeSubAgent` under a provider that throws on the task's call:
the catch branch of each `run*Agent`, and the switch default for an
unknown agent type (which performs no provider call at all). -/
def executeThrow (t : AgentTask) : SubAgentResult :=
  if t.agentType = "objective" then
    ⟨"objective", false, "[MEDIUM] REVENUE_MAXIMIZATION", "Default objective due to error",
      .objectiveOut "REVENUE_MAXIMIZATION" "MEDIUM" "MEDIUM"⟩
  else if t.agentType = "forecast" then
    ⟨"forecast", false, "Demand Score: 0.50", "Default forecast due to error",
      .forecastOut 0.5 "STEADY" 0.3⟩
  else if t.agentType = "pricing" then
    ⟨"pricing", false, "REVENUE_MAXIMIZATION | Multiplier: 1.00x", "Default pricing due to error",
      .pricingOut 1.0 "HOLD"⟩
  else if t.agentType = "seat_allocation" then
    ⟨"seat_allocation", false, "[MEDIUM] HOLD", "Default allocation due to error",
      .seatOut "HOLD" "MEDIUM"⟩
  else if t.agentType = "competitor" then
    ⟨"competitor", false, "[MEDIUM THREAT] Position: COMPETITIVE", "Default analysis due to error",
      .competitorOut "MEDIUM" "COMPETITIVE" ""⟩
  else
    ⟨t.agentType, false, "Unknown agent type", "No handler for this agent type", .emptyOut⟩

/-- Embeds `getAgentDisplayName`. -/
def getAgentDisplayName (agentType : String) : String :=
  if agentType = "objective" then "Objective Agent"
  else if agentType = "forecast" then "Forecast Agent"
  else if agentType = "pricing" then "Pricing Agent"
  else if agentType = "seat_allocation" then "Seat Allocation Agent"
  else if agentType = "competitor" then "Competitor Agent"
  else agentType

/-- One audit-log row as written through `onLog`
(`logReasoning`): agent name, decision label, reasoning text. -/
structure AuditEntry where
  agentName : String
  decision : String
  reasoning : String
deriving DecidableEq

/-- The comparator of `[...plan.tasks].sort((a, b) => a.priority - b.priority)`.
`Array.prototype.sort` is stable (ES2019), modelled as a stable
insertion sort below. -/
def taskLE (a b : AgentTask) : Prop := a.priority ≤ b.priority

instance : DecidableRel taskLE :=
  fun a b => inferInstanceAs (Decidable (a.priority ≤ b.priority))

instance : IsTotal AgentTask taskLE := ⟨fun a b => le_total a.priority b.priority⟩

instance : IsTrans AgentTask taskLE := ⟨fun _ _ _ h1 h2 => le_trans h1 h2⟩

/-- Embeds `const sortedTasks = [...plan.tasks].sort((a, b) => a.priority - b.priority)`. -/
def sortTasks (tasks : List AgentTask) : List AgentTask :=
  List.insertionSort taskLE tasks

/-- The per-round mutable state of `orchestrate`: the `subAgentResults`
map (insertion-ordered, JavaScript `Map.set` semantics), the executed
tasks in execution order, and the audit log written through `onLog`. -/
structure OrchState where
  results : List (String × SubAgentResult)
  executed : List AgentTask
  audit : List AuditEntry
deriving DecidableEq

/-- Embeds `this.subAgentResults.has(dep)`. -/
def mapHas (m : List (String × SubAgentResult)) (k : String) : Bool :=
  m.any (fun p => p.1 = k)

/-- Embeds `this.subAgentResults.set(key, value)`: replaces in place if the key
exists, otherwise appends. -/
def mapSet (m : List (String × SubAgentResult)) (k : String) (v : SubAgentResult) :
    List (String × SubAgentResult) :=
  if mapHas m k then m.map (fun p => if p.1 = k then (k, v) else p) else m ++ [(k, v)]

/-- The plan audit entry logged by `orchestrate` before the task loop. -/
def planAuditEntry (plan : OrchestratorPlan) : AuditEntry :=
  ⟨"Orchestrator Agent",
    "[PLAN] " ++ plan.strategy ++ " | " ++ toString plan.tasks.length ++ " agents",
    plan.reasoning⟩

/-- One iteration of `orchestrate`'s task loop: skip when a declared
dependency has no stored result, otherwise execute, store the result
under the task's type, and write the audit entry (`executeSubAgent`
always calls `onLog` after computing the result, defaulted or not). -/
def orchStep (exec : AgentTask → SubAgentResult) (s : OrchState) (t : AgentTask) : OrchState :=
  if t.dependsOn.all (fun d => mapHas s.results d) then
    { results := mapSet s.results t.agentType (exec t),
      executed := s.executed ++ [t],
      audit := s.audit ++
        [⟨getAgentDisplayName t.agentType, (exec t).decision, (exec t).reasoning⟩] }
  else s

/-- Embeds `orchestrate`, parametric in the per-task executor so the same model
covers healthy, throwing and mixed providers. -/
def orchestrate (exec : AgentTask → SubAgentResult) (plan : OrchestratorPlan) : OrchState :=
  (sortTasks plan.tasks).foldl (orchStep exec) ⟨[], [], [planAuditEntry plan]⟩

/-- Embeds `computeFinalOutcome`'s `pricingApplied` flag: pricing result
present, successful, and adjustment type not HOLD. -/
def pricingAppliedFlag (results : List (String × SubAgentResult)) : Bool :=
  match results.find? (fun p => p.1 = "pricing") with
  | none => false
  | some p => p.2.success && decide (adjustmentTypeOf p.2.output ≠ some "HOLD")

/-! ### Helper lemmas about `jsRound` and the clamp -/

theorem jsRound_intCast (n : ℤ) : jsRound (n : ℚ) = n := by
  unfold jsRound
  rw [Int.floor_eq_iff]
  refine ⟨by linarith, ?_⟩
  have h1 : ((n + 1 : ℤ) : ℚ) = (n : ℚ) + 1 := by push_cast; ring
  linarith [h1.ge]

theorem jsRound_mono {x y : ℚ} (h : x ≤ y) : jsRound x ≤ jsRound y :=
  Int.floor_le_floor (by linarith)

theorem jsRound_le_of_le {x : ℚ} {n : ℤ} (h : x ≤ (n : ℚ)) :
    ((jsRound x : ℤ) : ℚ) ≤ (n : ℚ) := by
  have h2 := jsRound_mono h
  rw [jsRound_intCast] at h2
  exact_mod_cast h2

theorem le_jsRound_of_le {x : ℚ} {n : ℤ} (h : (n : ℚ) ≤ x) :
    (n : ℚ) ≤ ((jsRound x : ℤ) : ℚ) := by
  have h2 := jsRound_mono h
  rw [jsRound_intCast] at h2
  exact_mod_cast h2

theorem clampedMultiplier_lb (m : RawMultipliers) : 0.80 ≤ clampedMultiplier m :=
  le_max_left _ _

theorem clampedMultiplier_ub (m : RawMultipliers) : clampedMultiplier m ≤ 1.20 :=
  max_le (by norm_num) (min_le_left _ _)

/-- Rounded price bounds for a base price whose 0.8× and 1.2× scalings
are integers. -/
theorem econPriceBounds (base : ℚ) (lo hi : ℤ) (mu : ℚ)
    (hb : 0 ≤ base) (hm1 : 0.80 ≤ mu) (hm2 : mu ≤ 1.20)
    (hlo : (lo : ℚ) = 0.80 * base) (hhi : (hi : ℚ) = 1.20 * base) :
    0.80 * base ≤ ((jsRound (base * mu) : ℤ) : ℚ) ∧
      ((jsRound (base * mu) : ℤ) : ℚ) ≤ 1.20 * base := by
  constructor
  · rw [← hlo]
    exact le_jsRound_of_le (by rw [hlo]; nlinarith)
  · rw [← hhi]
    exact jsRound_le_of_le (by rw [hhi]; nlinarith)

/-- Rounded price upper bound for a base price whose 1.25× scaling is an
integer. -/
theorem busPriceBound (base : ℚ) (hi : ℤ) (mu : ℚ)
    (hb : 0 ≤ base) (hm2 : mu ≤ 1.25) (hhi : (hi : ℚ) = 1.25 * base) :
    ((jsRound (base * mu) : ℤ) : ℚ) ≤ 1.25 * base := by
  rw [← hhi]
  exact jsRound_le_of_le (by rw [hhi]; nlinarith)

/-- C1 (claim theorem). For every bucket whose base price is one of the
base prices created by `createSession` (base prices are immutable: no
code path ever writes `basePrice`), and for arbitrary raw feature
multipliers — missing, invalid/NaN, or any finite number — the price
written by the pricing step satisfies
`0.80*basePrice ≤ price ≤ 1.20*basePrice` for ECONOMY buckets and
`price ≤ 1.25*basePrice` for BUSINESS buckets. -/
theorem priceBoundInvariant (b : Bucket) (m : RawMultipliers)
    (hb : b.basePrice ∈ initialBuckets.map InitBucketDef.basePrice) :
    (b.cls = "ECONOMY" →
      0.80 * b.basePrice ≤ newPriceQ b m ∧ newPriceQ b m ≤ 1.20 * b.basePrice) ∧
    (b.cls = "BUSINESS" → newPriceQ b m ≤ 1.25 * b.basePrice) := by
  have hm1 := clampedMultiplier_lb m
  have hm2 := clampedMultiplier_ub m
  have hbus2 : bucketMultiplier "BUSINESS" (clampedMultiplier m) ≤ 1.25 := by
    unfold bucketMultiplier
    simp only [if_pos rfl]
    exact min_le_left _ _
  have heco : bucketMultiplier "ECONOMY" (clampedMultiplier m) = clampedMultiplier m := by
    unfold bucketMultiplier
    rw [if_neg (by decide)]
  simp only [initialBuckets, List.map_cons, List.map_nil, List.mem_cons,
    List.not_mem_nil, or_false] at hb
  constructor
  · intro hcls
    unfold newPriceQ
    rw [hcls, heco]
    rcases hb with h | h | h | h | h | h <;> rw [h] <;>
      [ exact econPriceBounds 12000 9600 14400 _ (by norm_num) hm1 hm2 (by norm_num) (by norm_num);
        exact econPriceBounds 14000 11200 16800 _ (by norm_num) hm1 hm2 (by norm_num) (by norm_num);
        exact econPriceBounds 16000 12800 19200 _ (by norm_num) hm1 hm2 (by norm_num) (by norm_num);
        exact econPriceBounds 18000 14400 21600 _ (by norm_num) hm1 hm2 (by norm_num) (by norm_num);
        exact econPriceBounds 28000 22400 33600 _ (by norm_num) hm1 hm2 (by norm_num) (by norm_num);
        exact econPriceBounds 32000 25600 38400 _ (by norm_num) hm1 hm2 (by norm_num) (by norm_num)]
  · intro hcls
    unfold newPriceQ
    rw [hcls]
    rcases hb with h | h | h | h | h | h <;> rw [h] <;>
      [ exact busPriceBound 12000 15000 _ (by norm_num) hbus2 (by norm_num);
        exact busPriceBound 14000 17500 _ (by norm_num) hbus2 (by norm_num);
        exact busPriceBound 16000 20000 _ (by norm_num) hbus2 (by norm_num);
        exact busPriceBound 18000 22500 _ (by norm_num) hbus2 (by norm_num);
        exact busPriceBound 28000 35000 _ (by norm_num) hbus2 (by norm_num);
        exact busPriceBound 32000 40000 _ (by norm_num) hbus2 (by norm_num)]

/-- C1 witness: the bound theorem applied to a concrete bucket and a
concrete out-of-range pricing response. -/
theorem priceBoundInvariantApplied :
    0.80 * cexEcoBucket.basePrice ≤ newPriceQ cexEcoBucket wildMultipliers ∧
      newPriceQ cexEcoBucket wildMultipliers ≤ 1.20 * cexEcoBucket.basePrice :=
  (priceBoundInvariant cexEcoBucket wildMultipliers (by decide)).1 rfl

theorem repriceMap_idem (m : RawMultipliers) (l : List Bucket) :
    (l.map (fun b => { b with price := newPriceQ b m })).map
        (fun b => { b with price := newPriceQ b m }) =
      l.map (fun b => { b with price := newPriceQ b m }) := by
  induction l with
  | nil => rfl
  | cons a l ih => exact congrArg₂ List.cons rfl ih

theorem repriceMap_price (m : RawMultipliers) (l : List Bucket) :
    (l.map (fun b => { b with price := newPriceQ b m })).map Bucket.price =
      l.map (fun b => newPriceQ b m) := by
  induction l with
  | nil => rfl
  | cons a l ih => exact congrArg₂ List.cons rfl ih

theorem repriceMap_sold (m : RawMultipliers) (l : List Bucket) :
    (l.map (fun b => { b with price := newPriceQ b m })).map soldD = l.map soldD := by
  induction l with
  | nil => rfl
  | cons a l ih => exact congrArg₂ List.cons rfl ih

/-- C2 (claim theorem). Repricing does not compound: the pricing step is
idempotent, and after two consecutive rounds with the same raw
multipliers every bucket's price is `round(basePrice * effective
multiplier)` computed from the immutable `basePrice` — never from the
previous price. -/
theorem noCompoundingAcrossRounds (st : SessState) (m : RawMultipliers) :
    applyPricingRound (applyPricingRound st m) m = applyPricingRound st m ∧
    (applyPricingRound (applyPricingRound st m) m).buckets.map Bucket.price =
      st.buckets.map (fun b => newPriceQ b m) := by
  constructor
  · exact congrArg (fun bs => SessState.mk bs st.totalRevenue) (repriceMap_idem m st.buckets)
  · exact (congrArg (List.map Bucket.price) (repriceMap_idem m st.buckets)).trans
      (repriceMap_price m st.buckets)

/-- C3 counterexample. Starting from an aggregate-consistent ledger, a
pricing round that raises the single bucket's price leaves
`session.totalRevenue` at its old value, which differs from the spec's
`Σ price_i × sold_i` over the updated bucket set: the aggregate is not
recomputed after repricing. -/
theorem clamped_uplift : clampedMultiplier upliftMultipliers = 1.20 := by
  have hc : combinedMultiplier upliftMultipliers = 1.20 := by
    norm_num [combinedMultiplier, upliftMultipliers, RawMult.validated]
  unfold clampedMultiplier
  rw [hc, min_self, max_eq_right (by norm_num)]

theorem revenueNotRecomputedCex :
    (applyPricingRound consistentLedger upliftMultipliers).totalRevenue ≠
      specSessionRevenue (applyPricingRound consistentLedger upliftMultipliers).buckets := by
  have hp : newPriceQ ⟨0, "ECO_1", "ECONOMY", 42, some 1, 12000, 12000⟩ upliftMultipliers
      = 14400 := by
    unfold newPriceQ bucketMultiplier
    rw [if_neg (by decide), clamped_uplift]
    norm_num [jsRound]
  simp only [applyPricingRound, specSessionRevenue, consistentLedger, List.map_cons,
    List.map_nil, soldD, Option.getD_some, List.sum_cons, List.sum_nil]
  rw [hp]
  norm_num

/-- C3 amended. A pricing round rewrites bucket prices only: it leaves
`session.totalRevenue` and every bucket's `sold` count unchanged (and
nothing in `runOrchestration` ever writes `loadFactor`).  The revenue
aggregate is instead maintained incrementally: a successful booking adds
exactly `price × quantity` of the booked bucket to the previous
total. -/
theorem aggregatesIncrementalAmended (st : SessState) (m : RawMultipliers)
    (st2 : SessState) (code : String) (qty : ℚ) (b : Bucket)
    (hfind : findBucket st2 code = some b) (hcap : soldD b + qty ≤ b.allocated) :
    (applyPricingRound st m).totalRevenue = st.totalRevenue ∧
    (applyPricingRound st m).buckets.map soldD = st.buckets.map soldD ∧
    (bookTicket st2 code qty).2.totalRevenue = st2.totalRevenue + b.price * qty := by
  refine ⟨rfl, repriceMap_sold m st.buckets, ?_⟩
  unfold bookTicket
  rw [hfind]
  simp only [if_neg (not_lt.mpr hcap)]

/-- C3 amended witness: applied to the concrete consistent ledger and a
concrete successful booking of 2 seats in ECO_1. -/
theorem aggregatesIncrementalApplied :
    (applyPricingRound consistentLedger upliftMultipliers).totalRevenue =
        consistentLedger.totalRevenue ∧
      (bookTicket consistentLedger "ECO_1" 2).2.totalRevenue =
        consistentLedger.totalRevenue + 12000 * 2 := by
  have h := aggregatesIncrementalAmended consistentLedger upliftMultipliers
    consistentLedger "ECO_1" 2 ⟨0, "ECO_1", "ECONOMY", 42, some 1, 12000, 12000⟩
    rfl (by norm_num [soldD])
  exact ⟨h.1, h.2.2⟩

/-! ### Booking lemmas -/

theorem find?_map_code (l : List Bucket) (code : String) (u : Bucket → Bucket)
    (hcode : ∀ b, (u b).code = b.code) :
    (l.map u).find? (fun b => b.code = code) =
      (l.find? (fun b => b.code = code)).map u := by
  induction l with
  | nil => rfl
  | cons a l ih =>
    by_cases h : a.code = code
    · rw [List.map_cons, List.find?_cons_of_pos _ (by simp [hcode, h]),
        List.find?_cons_of_pos _ (by simp [h]), Option.map_some']
    · rw [List.map_cons, List.find?_cons_of_neg _ (by simp [hcode, h]),
        List.find?_cons_of_neg _ (by simp [h]), ih]

theorem bookUpdate_code (t : Bucket) (q : ℚ) (b : Bucket) :
    ((if b.id = t.id then { b with sold := some (soldD t + q) } else b) : Bucket).code
      = b.code := by
  split <;> rfl

theorem bookTicket_success_iff (st : SessState) (code : String) (qty : ℚ) :
    (bookTicket st code qty).1 = true ↔
      ∃ b, findBucket st code = some b ∧ soldD b + qty ≤ b.allocated := by
  rcases hf : findBucket st code with _ | t
  · simp [bookTicket, hf]
  · by_cases hcap : soldD t + qty > t.allocated
    · simp only [bookTicket, hf, if_pos hcap]
      simp only [Bool.false_eq_true, false_iff, not_exists, not_and]
      intro b hb
      obtain rfl : t = b := by simpa using hb
      exact not_le.mpr hcap
    · simp only [bookTicket, hf, if_neg hcap, true_iff]
      exact ⟨t, rfl, not_lt.mp hcap⟩

theorem bookTicket_success_effects (st : SessState) (code : String) (qty : ℚ) (b : Bucket)
    (hfind : findBucket st code = some b) (hcap : soldD b + qty ≤ b.allocated) :
    (bookTicket st code qty).2.totalRevenue = st.totalRevenue + b.price * qty ∧
      findBucket (bookTicket st code qty).2 code =
        some { b with sold := some (soldD b + qty) } := by
  have hred : bookTicket st code qty =
      (true,
        { buckets := st.buckets.map (fun b2 =>
            if b2.id = b.id then { b2 with sold := some (soldD b + qty) } else b2),
          totalRevenue := st.totalRevenue + b.price * qty }) := by
    unfold bookTicket
    rw [hfind]
    simp only [if_neg (not_lt.mpr hcap)]
  refine ⟨by rw [hred], ?_⟩
  rw [hred]
  show List.find? _ (List.map _ _) = _
  rw [find?_map_code _ code _ (bookUpdate_code b qty)]
  show (findBucket st code).map _ = _
  rw [hfind, Option.map_some']
  simp

theorem bookTicket_failure_noop (st : SessState) (code : String) (qty : ℚ)
    (h : (bookTicket st code qty).1 = false) : (bookTicket st code qty).2 = st := by
  rcases hf : findBucket st code with _ | t
  · simp [bookTicket, hf]
  · by_cases hcap : soldD t + qty > t.allocated
    · simp [bookTicket, hf, if_pos hcap]
    · simp only [bookTicket, hf, if_neg hcap] at h
      exact absurd h (by simp)

theorem bookTicket_overbook_fails (st : SessState) (code : String) (b : Bucket)
    (hfind : findBucket st code = some b) :
    (bookTicket st code (b.allocated - soldD b + 1)).1 = false := by
  have hgt : soldD b + (b.allocated - soldD b + 1) > b.allocated := by linarith
  simp only [bookTicket, hfind, if_pos hgt]

theorem bookTicket_preserves_inv (st : SessState) (code : String) (qty : ℚ)
    (hq : 1 ≤ qty) (hnd : (st.buckets.map Bucket.id).Nodup) (hinv : capacityInv st) :
    capacityInv (bookTicket st code qty).2 := by
  rcases hf : findBucket st code with _ | t
  · simpa [bookTicket, hf] using hinv
  · by_cases hcap : soldD t + qty > t.allocated
    · simpa [bookTicket, hf, if_pos hcap] using hinv
    · simp only [bookTicket, hf, if_neg hcap]
      intro b' hb'
      rcases List.mem_map.mp hb' with ⟨b0, hb0, rfl⟩
      by_cases hid : b0.id = t.id
      · have ht : t ∈ st.buckets := List.mem_of_find?_eq_some hf
        have hbt : b0 = t := List.inj_on_of_nodup_map hnd hb0 ht hid
        subst hbt
        rw [if_pos hid]
        have h1 := (hinv b0 hb0).1
        constructor
        · show (0 : ℚ) ≤ soldD b0 + qty
          linarith
        · show soldD b0 + qty ≤ b0.allocated
          exact not_lt.mp hcap
      · rw [if_neg hid]
        exact hinv b0 hb0

theorem reprice_preserves_inv (st : SessState) (m : RawMultipliers)
    (hinv : capacityInv st) : capacityInv (applyPricingRound st m) := by
  intro b' hb'
  rcases List.mem_map.mp hb' with ⟨b0, hb0, rfl⟩
  exact hinv b0 hb0

theorem initialState_buckets (n : ℕ) :
    (initialState n).buckets =
      [ mkInitBucket 0 ⟨"ECO_1", "ECONOMY", 42, 12000, 12000⟩ (min n 42),
        mkInitBucket 1 ⟨"ECO_2", "ECONOMY", 42, 14000, 14000⟩ (min (n - min n 42) 42),
        mkInitBucket 2 ⟨"ECO_3", "ECONOMY", 42, 16000, 16000⟩
          (min (n - min n 42 - min (n - min n 42) 42) 42),
        mkInitBucket 3 ⟨"ECO_4", "ECONOMY", 42, 18000, 18000⟩
          (min (n - min n 42 - min (n - min n 42) 42 -
            min (n - min n 42 - min (n - min n 42) 42) 42) 42),
        mkInitBucket 4 ⟨"BUS_1", "BUSINESS", 12, 28000, 28000⟩
          (min (n - min n 42 - min (n - min n 42) 42 -
            min (n - min n 42 - min (n - min n 42) 42) 42 -
            min (n - min n 42 - min (n - min n 42) 42 -
              min (n - min n 42 - min (n - min n 42) 42) 42) 42) 12),
        mkInitBucket 5 ⟨"BUS_2", "BUSINESS", 12, 32000, 32000⟩
          (min (n - min n 42 - min (n - min n 42) 42 -
            min (n - min n 42 - min (n - min n 42) 42) 42 -
            min (n - min n 42 - min (n - min n 42) 42 -
              min (n - min n 42 - min (n - min n 42) 42) 42) 42 -
            min (n - min n 42 - min (n - min n 42) 42 -
              min (n - min n 42 - min (n - min n 42) 42) 42 -
              min (n - min n 42 - min (n - min n 42) 42 -
                min (n - min n 42 - min (n - min n 42) 42) 42) 42) 12) 12) ] := by
  simp only [initialState, initialBuckets, List.enum, bucketSales]
  rfl

theorem initialState_inv (n : ℕ) : capacityInv (initialState n) := by
  intro b hb
  rw [initialState_buckets] at hb
  simp only [List.mem_cons, List.not_mem_nil, or_false] at hb
  rcases hb with rfl | rfl | rfl | rfl | rfl | rfl <;>
    exact ⟨by simp only [mkInitBucket, soldD, Option.getD_some]; exact Nat.cast_nonneg _,
      by simp only [mkInitBucket, soldD, Option.getD_some]; exact_mod_cast Nat.min_le_right _ _⟩

/-- C4 (claim theorem). `bookTicket` succeeds exactly when a bucket with
the requested code exists and `sold + quantity ≤ allocated`; on success
`sold` grows by exactly `quantity` and the session revenue by
`price × quantity`; on failure nothing changes (in particular a request
for `allocated - sold + 1` seats fails); and the capacity invariant
`0 ≤ sold ≤ allocated` is established by session creation and preserved
by bookings with `quantity ≥ 1` and by pricing rounds. -/
theorem bookingCapacityInvariant (st : SessState) (code : String) (qty : ℚ)
    (m : RawMultipliers) (n : ℕ) :
    ((bookTicket st code qty).1 = true ↔
      ∃ b, findBucket st code = some b ∧ soldD b + qty ≤ b.allocated) ∧
    (∀ b, findBucket st code = some b → soldD b + qty ≤ b.allocated →
      (bookTicket st code qty).2.totalRevenue = st.totalRevenue + b.price * qty ∧
      findBucket (bookTicket st code qty).2 code =
        some { b with sold := some (soldD b + qty) }) ∧
    ((bookTicket st code qty).1 = false → (bookTicket st code qty).2 = st) ∧
    (∀ b, findBucket st code = some b →
      (bookTicket st code (b.allocated - soldD b + 1)).1 = false) ∧
    (1 ≤ qty → (st.buckets.map Bucket.id).Nodup → capacityInv st →
      capacityInv (bookTicket st code qty).2) ∧
    (capacityInv st → capacityInv (applyPricingRound st m)) ∧
    capacityInv (initialState n) :=
  ⟨bookTicket_success_iff st code qty,
   fun b hf hc => bookTicket_success_effects st code qty b hf hc,
   bookTicket_failure_noop st code qty,
   fun b hf => bookTicket_overbook_fails st code b hf,
   fun hq hnd hinv => bookTicket_preserves_inv st code qty hq hnd hinv,
   fun hinv => reprice_preserves_inv st m hinv,
   initialState_inv n⟩

/-- C4 witness: on the concrete 41-of-42 ledger, a request for
`allocated - sold + 1` seats fails, and a booking of one seat preserves
the capacity invariant. -/
theorem bookingCapacityInvariantApplied :
    (bookTicket nearlyFullLedger "ECO_1"
        (nearlyFullBucket.allocated - soldD nearlyFullBucket + 1)).1 = false ∧
      capacityInv (bookTicket nearlyFullLedger "ECO_1" 1).2 := by
  have h := bookingCapacityInvariant nearlyFullLedger "ECO_1" 1 upliftMultipliers 0
  refine ⟨h.2.2.2.1 nearlyFullBucket rfl,
    h.2.2.2.2.1 (by norm_num) (by simp [nearlyFullLedger, nearlyFullBucket]) ?_⟩
  intro b hb
  have hb2 : b = nearlyFullBucket := by simpa [nearlyFullLedger] using hb
  subst hb2
  constructor <;> norm_num [soldD, nearlyFullBucket]

/-- C10 (claim theorem). The ledger-level `bookTicket` enforces no lower
bound on the quantity: any quantity (zero or negative included) passing
the capacity check is accepted, `sold` moves by exactly that quantity
and revenue by `price × quantity`; the `quantity ≥ 1` rule lives only in
the route input schema `z.number().min(1)`, which accepts the
non-integer 1.5. -/
theorem bookTicketNoLowerBound (st : SessState) (code : String) (qty : ℚ) (b : Bucket)
    (hfind : findBucket st code = some b) (hcap : soldD b + qty ≤ b.allocated) :
    (bookTicket st code qty).1 = true ∧
    (bookTicket st code qty).2.totalRevenue = st.totalRevenue + b.price * qty ∧
    findBucket (bookTicket st code qty).2 code =
      some { b with sold := some (soldD b + qty) } ∧
    bookQuantityValid (3/2) = true ∧ bookQuantityValid 1 = true ∧
    bookQuantityValid 0 = false ∧ bookQuantityValid (-1) = false := by
  have he := bookTicket_success_effects st code qty b hfind hcap
  refine ⟨(bookTicket_success_iff st code qty).mpr ⟨b, hfind, hcap⟩, he.1, he.2, ?_, ?_, ?_, ?_⟩
  all_goals simp [bookQuantityValid]
  all_goals norm_num

/-- C10 witness: booking a negative quantity (-2) on the concrete ledger
succeeds, decreases `sold` from 5 to 3 and decreases the session
revenue by `14400 × 2`. -/
theorem bookTicketNoLowerBoundApplied :
    (bookTicket midSoldLedger "ECO_1" (-2)).1 = true ∧
    (bookTicket midSoldLedger "ECO_1" (-2)).2.totalRevenue =
      midSoldLedger.totalRevenue + midSoldBucket.price * (-2) ∧
    findBucket (bookTicket midSoldLedger "ECO_1" (-2)).2 "ECO_1" =
      some { midSoldBucket with sold := some (soldD midSoldBucket + (-2)) } := by
  have h := bookTicketNoLowerBound midSoldLedger "ECO_1" (-2) midSoldBucket rfl
    (by norm_num [soldD, midSoldBucket])
  exact ⟨h.1, h.2.1, h.2.2.1⟩

/-! ### Plan builder and orchestrator theorems -/

/-- C5 (claim theorem). When dynamic plan generation throws, the Plan
Builder returns the fixed hard-coded default plan: exactly five tasks —
objective first (priority 1, no dependencies), forecast and competitor
in parallel at priority 2 (forecast depending on objective), pricing at
priority 3 depending on objective and forecast, and seat-allocation at
priority 4 depending on pricing. -/
theorem defaultPlanFallback :
    generatePlan .err = getDefaultPlan ∧
    getDefaultPlan.tasks.length = 5 ∧
    getDefaultPlan.tasks.map (fun t => (t.agentType, t.priority, t.dependsOn)) =
      [("objective", (1 : ℤ), ([] : List String)),
       ("forecast", 2, ["objective"]),
       ("competitor", 2, []),
       ("pricing", 3, ["objective", "forecast"]),
       ("seat_allocation", 4, ["pricing"])] :=
  ⟨rfl, rfl, rfl⟩

/-- C9 counterexample. A provider response that parses but contains no
task list is NOT treated as a failure: `generatePlan` returns a plan
with zero tasks (and default metadata), which differs from the default
plan. -/
theorem emptyPlanNotDefaultCex :
    generatePlan (.ok emptyParsedPlan) ≠ getDefaultPlan ∧
    (generatePlan (.ok emptyParsedPlan)).tasks = [] := by
  constructor
  · intro h
    have h2 := congrArg (fun pl => pl.tasks.length) h
    simp [generatePlan, emptyParsedPlan, getDefaultPlan] at h2
  · rfl

/-- C9 amended. Only a thrown error (provider failure or unparsable
response) makes the Plan Builder fall back to the default plan; a
successfully parsed response keeps its task list as mapped — in
particular a missing or empty task list yields a plan with zero
executable tasks, not the default plan. -/
theorem emptyPlanKeptAmended (p : ParsedPlan) :
    generatePlan .err = getDefaultPlan ∧
    (generatePlan (.ok p)).tasks.length = (p.tasks.getD []).length ∧
    (p.tasks = some [] → (generatePlan (.ok p)).tasks = []) := by
  refine ⟨rfl, ?_, ?_⟩
  · simp [generatePlan]
  · intro h
    simp [generatePlan, h]

/-- C9 amended witness: a parsed plan carrying an explicitly empty task
array is returned with zero tasks. -/
theorem emptyPlanKeptApplied :
    (generatePlan (.ok ⟨some "x", none, none, none, some []⟩)).tasks = [] :=
  (emptyPlanKeptAmended ⟨some "x", none, none, none, some []⟩).2.2 rfl

/-- C7 (claim theorem). If the provider throws on every call of a round
(plan generation included), the round runs the default plan, every one
of the five decision tasks is executed and audited with its documented
default decision, every stored result has `success = false`, the final
outcome reports no pricing applied, and the ledger-side pricing step
leaves every bucket price unchanged. -/
theorem allDefaultedRoundAudited :
    (orchestrate executeThrow (generatePlan .err)).audit =
      [ planAuditEntry getDefaultPlan,
        ⟨"Objective Agent", "[MEDIUM] REVENUE_MAXIMIZATION", "Default objective due to error"⟩,
        ⟨"Forecast Agent", "Demand Score: 0.50", "Default forecast due to error"⟩,
        ⟨"Competitor Agent", "[MEDIUM THREAT] Position: COMPETITIVE",
          "Default analysis due to error"⟩,
        ⟨"Pricing Agent", "REVENUE_MAXIMIZATION | Multiplier: 1.00x",
          "Default pricing due to error"⟩,
        ⟨"Seat Allocation Agent", "[MEDIUM] HOLD", "Default allocation due to error"⟩ ] ∧
    (orchestrate executeThrow (generatePlan .err)).results.map (fun p => p.2.success) =
      [false, false, false, false, false] ∧
    pricingAppliedFlag (orchestrate executeThrow (generatePlan .err)).results = false ∧
    (∀ st : SessState, runPricingStep st .err = st) :=
  ⟨rfl, rfl, rfl, fun _ => rfl⟩

/-- C8 (claim theorem). A single task whose provider call throws yields
a well-formed defaulted result (`success = false`; pricing: multiplier
1.0 and adjustment "HOLD"; objective: REVENUE_MAXIMIZATION at MEDIUM
confidence and urgency), and the round continues: over the default
plan, all five tasks execute no matter what each task execution
returns. -/
theorem singleTaskFailureDefaults :
    executeThrow
        ⟨"pricing", 3, "Calculate prices", ["objective", "forecast"],
          ["objective", "forecast"]⟩ =
      ⟨"pricing", false, "REVENUE_MAXIMIZATION | Multiplier: 1.00x",
        "Default pricing due to error", .pricingOut 1.0 "HOLD"⟩ ∧
    executeThrow ⟨"objective", 1, "Set pricing strategy", [], ["environment"]⟩ =
      ⟨"objective", false, "[MEDIUM] REVENUE_MAXIMIZATION",
        "Default objective due to error",
        .objectiveOut "REVENUE_MAXIMIZATION" "MEDIUM" "MEDIUM"⟩ ∧
    ∀ exec : AgentTask → SubAgentResult,
      (orchestrate exec getDefaultPlan).executed.map AgentTask.agentType =
        ["objective", "forecast", "competitor", "pricing", "seat_allocation"] :=
  ⟨rfl, rfl, fun _ => rfl⟩

/-! ### Dependency-skip semantics (C6) -/

theorem mapHas_iff (m : List (String × SubAgentResult)) (k : String) :
    mapHas m k = true ↔ ∃ p ∈ m, p.1 = k := by
  simp [mapHas, List.any_eq_true]

theorem mapSet_keys (m : List (String × SubAgentResult)) (k : String) (v : SubAgentResult)
    (k' : String) :
    (∃ p ∈ mapSet m k v, p.1 = k') ↔ (∃ p ∈ m, p.1 = k') ∨ k' = k := by
  unfold mapSet
  by_cases h : mapHas m k = true
  · rw [if_pos h]
    constructor
    · rintro ⟨p, hp, hpk⟩
      rcases List.mem_map.mp hp with ⟨q, hq, rfl⟩
      by_cases hqk : q.1 = k
      · rw [if_pos hqk] at hpk
        exact .inr hpk.symm
      · rw [if_neg hqk] at hpk
        exact .inl ⟨q, hq, hpk⟩
    · rintro (⟨p, hp, hpk⟩ | hkk)
      · by_cases hpk2 : p.1 = k
        · exact ⟨(k, v), List.mem_map.mpr ⟨p, hp, if_pos hpk2⟩, hpk2.symm.trans hpk⟩
        · exact ⟨p, List.mem_map.mpr ⟨p, hp, if_neg hpk2⟩, hpk⟩
      · rcases (mapHas_iff m k).mp h with ⟨q, hq, hqk⟩
        exact ⟨(k, v), List.mem_map.mpr ⟨q, hq, if_pos hqk⟩, hkk.symm⟩
  · rw [if_neg h]
    constructor
    · rintro ⟨p, hp, hpk⟩
      rcases List.mem_append.mp hp with h1 | h1
      · exact .inl ⟨p, h1, hpk⟩
      · have h2 : p = (k, v) := by simpa using h1
        rw [h2] at hpk
        exact .inr hpk.symm
    · rintro (⟨p, hp, hpk⟩ | hkk)
      · exact ⟨p, List.mem_append.mpr (.inl hp), hpk⟩
      · exact ⟨(k, v), List.mem_append.mpr (.inr (by simp)), hkk.symm⟩

theorem orch_foldl_props (exec : AgentTask → SubAgentResult) (l : List AgentTask)
    (s : OrchState)
    (hkeys : ∀ k, mapHas s.results k = true ↔ ∃ E ∈ s.executed, E.agentType = k)
    (hdeps : ∀ A ∈ s.executed, ∀ d ∈ A.dependsOn, ∃ E ∈ s.executed, E.agentType = d) :
    (∀ k, mapHas (l.foldl (orchStep exec) s).results k = true ↔
        ∃ E ∈ (l.foldl (orchStep exec) s).executed, E.agentType = k) ∧
    (∀ A ∈ (l.foldl (orchStep exec) s).executed, ∀ d ∈ A.dependsOn,
        ∃ E ∈ (l.foldl (orchStep exec) s).executed, E.agentType = d) ∧
    (∀ A ∈ (l.foldl (orchStep exec) s).executed, A ∈ s.executed ∨ A ∈ l) := by
  induction l generalizing s with
  | nil => exact ⟨hkeys, hdeps, fun A hA => .inl hA⟩
  | cons t l ih =>
    rw [List.foldl_cons]
    have hstep : (∀ k, mapHas (orchStep exec s t).results k = true ↔
          ∃ E ∈ (orchStep exec s t).executed, E.agentType = k) ∧
        (∀ A ∈ (orchStep exec s t).executed, ∀ d ∈ A.dependsOn,
          ∃ E ∈ (orchStep exec s t).executed, E.agentType = d) ∧
        (∀ A ∈ (orchStep exec s t).executed, A ∈ s.executed ∨ A = t) := by
      unfold orchStep
      by_cases hc : (t.dependsOn.all (fun d => mapHas s.results d)) = true
      · rw [if_pos hc]
        refine ⟨?_, ?_, ?_⟩
        · intro k
          rw [mapHas_iff, mapSet_keys, ← mapHas_iff, hkeys k]
          constructor
          · rintro (⟨E, hE, hEk⟩ | rfl)
            · exact ⟨E, List.mem_append.mpr (.inl hE), hEk⟩
            · exact ⟨t, List.mem_append.mpr (.inr (by simp)), rfl⟩
          · rintro ⟨E, hE, hEk⟩
            rcases List.mem_append.mp hE with h1 | h1
            · exact .inl ⟨E, h1, hEk⟩
            · have h2 : E = t := by simpa using h1
              subst h2
              exact .inr hEk.symm
        · intro A hA d hd
          rcases List.mem_append.mp hA with h1 | h1
          · rcases hdeps A h1 d hd with ⟨E, hE, hEk⟩
            exact ⟨E, List.mem_append.mpr (.inl hE), hEk⟩
          · have h2 : A = t := by simpa using h1
            subst h2
            have hcd : mapHas s.results d = true := List.all_eq_true.mp hc d hd
            rcases (hkeys d).mp hcd with ⟨E, hE, hEk⟩
            exact ⟨E, List.mem_append.mpr (.inl hE), hEk⟩
        · intro A hA
          rcases List.mem_append.mp hA with h1 | h1
          · exact .inl h1
          · exact .inr (by simpa using h1)
      · rw [if_neg hc]
        exact ⟨hkeys, hdeps, fun A hA => .inl hA⟩
    rcases ih (orchStep exec s t) hstep.1 hstep.2.1 with ⟨k1, k2, k3⟩
    refine ⟨k1, k2, ?_⟩
    intro A hA
    rcases k3 A hA with h1 | h1
    · rcases hstep.2.2 A h1 with h2 | h2
      · exact .inl h2
      · exact .inr (by simp [h2])
    · exact .inr (List.mem_cons_of_mem t h1)

theorem filter_orderedInsert (p : ℤ) (a : AgentTask) (l : List AgentTask) :
    (List.orderedInsert taskLE a l).filter (fun t => t.priority = p) =
      if a.priority = p then a :: l.filter (fun t => t.priority = p)
      else l.filter (fun t => t.priority = p) := by
  induction l with
  | nil =>
    by_cases hap : a.priority = p <;> simp [List.orderedInsert, hap]
  | cons b l ih =>
    by_cases hab : taskLE a b
    · rw [List.orderedInsert, if_pos hab]
      by_cases hap : a.priority = p <;> simp [List.filter_cons, hap]
    · rw [List.orderedInsert, if_neg hab]
      have hba : b.priority < a.priority := not_le.mp hab
      by_cases hap : a.priority = p
      · have hbp : ¬ b.priority = p := by omega
        simp [List.filter_cons, hbp, hap, ih]
      · simp [List.filter_cons, hap, ih]

theorem filter_sortTasks (p : ℤ) (l : List AgentTask) :
    (sortTasks l).filter (fun t => t.priority = p) =
      l.filter (fun t => t.priority = p) := by
  induction l with
  | nil => rfl
  | cons a l ih =>
    show (List.orderedInsert taskLE a (sortTasks l)).filter _ = _
    rw [filter_orderedInsert]
    by_cases hap : a.priority = p <;> simp [List.filter_cons, hap, ih]

/-- C6 (claim theorem). One round processes the plan's tasks in a single
forward pass over the priority-sorted (stable: ties keep plan order)
task list; a task executes only if every declared dependency type
already has a stored result accumulated so far (the stored keys are
exactly the executed task types); every executed task comes from the
plan; and a task depending on a type no plan task carries — or whose
carrier was itself skipped — is never executed. -/
theorem dependencySkipSemantics (plan : OrchestratorPlan) (exec : AgentTask → SubAgentResult) :
    (sortTasks plan.tasks).Sorted taskLE ∧
    (∀ p : ℤ, (sortTasks plan.tasks).filter (fun t => t.priority = p) =
        plan.tasks.filter (fun t => t.priority = p)) ∧
    (∀ k, mapHas (orchestrate exec plan).results k = true ↔
        ∃ E ∈ (orchestrate exec plan).executed, E.agentType = k) ∧
    (∀ A ∈ (orchestrate exec plan).executed, ∀ d ∈ A.dependsOn,
        ∃ E ∈ (orchestrate exec plan).executed, E.agentType = d) ∧
    (∀ A ∈ (orchestrate exec plan).executed, A ∈ plan.tasks) ∧
    (∀ B, (∀ t ∈ plan.tasks, t.agentType ≠ B) →
        ∀ A, B ∈ A.dependsOn → A ∉ (orchestrate exec plan).executed) := by
  have base := orch_foldl_props exec (sortTasks plan.tasks) ⟨[], [], [planAuditEntry plan]⟩
    (by intro k; simp [mapHas]) (by intro A hA; simp at hA)
  have hmemtasks : ∀ A ∈ (orchestrate exec plan).executed, A ∈ plan.tasks := by
    intro A hA
    rcases base.2.2 A hA with h1 | h1
    · simp at h1
    · exact (List.perm_insertionSort taskLE plan.tasks).mem_iff.mp h1
  refine ⟨List.sorted_insertionSort taskLE plan.tasks,
    fun p => filter_sortTasks p plan.tasks, base.1, base.2.1, hmemtasks, ?_⟩
  intro B hB A hAdep hAexec
  rcases base.2.1 A hAexec B hAdep with ⟨E, hE, hEk⟩
  exact hB E (hmemtasks E hE) hEk

/-- C6 witness: in the concrete two-task plan whose pricing task depends
on the absent forecast type, the pricing task is never executed. -/
theorem dependencySkipApplied :
    orphanTask ∉ (orchestrate executeThrow orphanPlan).executed :=
  (dependencySkipSemantics orphanPlan executeThrow).2.2.2.2.2 "forecast"
    (by decide) orphanTask (by decide)

end FDP
